import Mathlib

/-!
Verification of the HelixCore in-browser toolchain core.

Shallow embedding of:
* `Compiler._buildElf` (src/src/engine/Compiler.js): ELF64 image construction
  and relocation patching;
* `AxRuntime.run` (src/unnamed/part_003): the syscall handlers for
  exit/exit_group, brk, stat, open/close and write routing, the per-run
  reset of the FD table and heap state, and the source-map fault lookup;
* `Chibicc` (src/unnamed/part_006): the source-map record emission and the
  code generator's `return` case together with the shared `.L.exit`
  epilogue.

Guest 64-bit register values are modelled as `Nat` (with explicit `% 2 ^ 64`
where JavaScript's `BigInt.asUintN` / `DataView` stores wrap), byte buffers
as functions `Nat → Nat` holding values `< 256`, and fallible operations as
`Option` / `Except`.
-/

namespace HelixCore

/-! ## Little-endian byte stores (models `Uint8Array` + `DataView` writes) -/

/-- Little-endian store of `w` bytes of `v` at offset `off`
(models `DataView.setUint16/32/BigUint64` with `littleEndian = true`;
the stored value wraps modulo `2 ^ (8 * w)` exactly as the JS setters do).
All writes performed by the embedded code are in bounds of their buffers,
so the `RangeError` path of `DataView` never fires and is not modelled. -/
def setLeFn (f : Nat → Nat) (off w v : Nat) : Nat → Nat :=
  fun j => if off ≤ j ∧ j < off + w then v / 256 ^ (j - off) % 256 else f j

/-- `buf.set(src, off)` on a `Uint8Array`: copies `src` into the buffer
starting at `off`. -/
def copyAtFn (f : Nat → Nat) (off : Nat) (src : List Nat) : Nat → Nat :=
  fun j => if off ≤ j ∧ j < off + src.length then src.getD (j - off) 0 % 256 else f j

/-- Little-endian read of `w` bytes starting at `off`. -/
def readLe (f : Nat → Nat) : Nat → Nat → Nat
  | _, 0 => 0
  | off, w + 1 => f off + 256 * readLe f (off + 1) w

/-- Signed interpretation of a 4-byte little-endian read
(`DataView.getInt32`). -/
def readInt32 (f : Nat → Nat) (off : Nat) : Int :=
  let u := readLe f off 4
  if u < 2 ^ 31 then (u : Int) else (u : Int) - 2 ^ 32

/-! ## ELF writer (`Compiler._buildElf`, src/src/engine/Compiler.js) -/

/-- An in-memory ELF image: the file size and the byte at each index. -/
structure ElfImage where
  size : Nat
  byte : Nat → Nat

/-- The ELF header and PT_LOAD program header writes of `Compiler._buildElf`,
in source order, applied to the zero-initialised file buffer.
`startOff` is `startSym?.statement?.address ?? 0`. -/
def elfHeaderBytes (text data : List Nat) (bssLen startOff : Nat) : Nat → Nat :=
  let fileSize := 120 + text.length + data.length
  let memSize := fileSize + bssLen
  let entryVA := 0x400078 + startOff
  let b : Nat → Nat := fun _ => 0
  let b := copyAtFn b 0 [0x7f, 0x45, 0x4c, 0x46]
  let b := setLeFn b 4 1 2
  let b := setLeFn b 5 1 1
  let b := setLeFn b 6 1 1
  let b := setLeFn b 7 1 0
  let b := setLeFn b 16 2 2
  let b := setLeFn b 18 2 0x3e
  let b := setLeFn b 20 4 1
  let b := setLeFn b 24 8 entryVA
  let b := setLeFn b 32 8 64
  let b := setLeFn b 40 8 0
  let b := setLeFn b 48 4 0
  let b := setLeFn b 52 2 64
  let b := setLeFn b 54 2 56
  let b := setLeFn b 56 2 1
  let b := setLeFn b 58 2 64
  let b := setLeFn b 60 2 0
  let b := setLeFn b 62 2 0
  let b := setLeFn b 64 4 1
  let b := setLeFn b 68 4 7
  let b := setLeFn b 72 8 0
  let b := setLeFn b 80 8 0x400000
  let b := setLeFn b 88 8 0x400000
  let b := setLeFn b 96 8 fileSize
  let b := setLeFn b 104 8 memSize
  let b := setLeFn b 112 8 0x1000
  b

/-- The full file buffer: headers followed by the section copies
`elf.set(textBytes, 120)` and `elf.set(dataBytes, 120 + textBytes.length)`. -/
def elfBytes (text data : List Nat) (bssLen startOff : Nat) : Nat → Nat :=
  copyAtFn (copyAtFn (elfHeaderBytes text data bssLen startOff) 120 text)
    (120 + text.length) data

/-- `Compiler._buildElf`: fails (throws) when `.text` is empty, otherwise
produces the image of size `120 + |.text| + |.data|`.  `startOff?` is the
result of `state.symbols?.get('_start')`: `none` when `_start` is undefined,
in which case the code falls back to offset `0` (`?? 0`). -/
def buildElf (text data : List Nat) (bssLen : Nat) (startOff? : Option Nat) :
    Option ElfImage :=
  if text.length = 0 then none
  else some ⟨120 + text.length + data.length,
    elfBytes text data bssLen (startOff?.getD 0)⟩

/-- The header-field properties claimed for the built ELF image: file size,
magic, `e_type`, `e_machine`, entry point, and the single PT_LOAD header. -/
def elfImageOk (text data : List Nat) (bssLen startOff : Nat) : Prop :=
  buildElf text data bssLen (some startOff)
      = some ⟨120 + text.length + data.length, elfBytes text data bssLen startOff⟩
  ∧ elfBytes text data bssLen startOff 0 = 0x7f
  ∧ elfBytes text data bssLen startOff 1 = 0x45
  ∧ elfBytes text data bssLen startOff 2 = 0x4c
  ∧ elfBytes text data bssLen startOff 3 = 0x46
  ∧ readLe (elfBytes text data bssLen startOff) 16 2 = 2
  ∧ readLe (elfBytes text data bssLen startOff) 18 2 = 0x3e
  ∧ readLe (elfBytes text data bssLen startOff) 24 8 = 0x400078 + startOff
  ∧ 0x400078 ≤ readLe (elfBytes text data bssLen startOff) 24 8
  ∧ readLe (elfBytes text data bssLen startOff) 24 8 < 0x400078 + text.length
  ∧ readLe (elfBytes text data bssLen startOff) 56 2 = 1
  ∧ readLe (elfBytes text data bssLen startOff) 64 4 = 1
  ∧ readLe (elfBytes text data bssLen startOff) 68 4 = 7
  ∧ readLe (elfBytes text data bssLen startOff) 80 8 = 0x400000
  ∧ readLe (elfBytes text data bssLen startOff) 96 8 = 120 + text.length + data.length
  ∧ readLe (elfBytes text data bssLen startOff) 104 8
      = (120 + text.length + data.length) + bssLen

/-! ## Relocation patching (`Compiler._buildElf`, relocation loop) -/

inductive SectionName where
  | text
  | data
  | bss

/-- The section virtual addresses fixed before patching:
`textVA = 0x400000 + 0x78`, `dataVA = textVA + |.text|`,
`bssVA = dataVA + |.data|`. -/
def sectionVA (textLen dataLen : Nat) : SectionName → Int
  | .text => 0x400078
  | .data => 0x400078 + textLen
  | .bss => 0x400078 + textLen + dataLen

/-- The patch value computed for one relocation record:
PC-relative: `addend + (tgtVA - srcVA) - (reloc.offset + patchSz)`;
absolute: `tgtVA + addend + stmt.address`. -/
def relocPatchValue (textLen dataLen : Nat) (srcSec tgtSec : SectionName)
    (stmtAddr relOffset patchSz : Nat) (addend : Int) (pcRel : Bool) : Int :=
  let srcVA := sectionVA textLen dataLen srcSec
  let tgtVA := sectionVA textLen dataLen tgtSec
  if pcRel then
    let delta := tgtVA - srcVA
    addend + delta - ((relOffset : Int) + patchSz)
  else
    tgtVA + addend + stmtAddr

/-- Wrapping of an integer to `w` unsigned bits, as performed by
`DataView.setInt32` (`ToInt32`) and `setBigInt64` (`ToBigInt64`) before the
little-endian store. -/
def toUintN (w : Nat) (v : Int) : Nat := (v.emod ((2 : Int) ^ w)).toNat

/-- `dv.setInt32(patchAt, patch, true)`: two's-complement truncation to
32 bits, stored little-endian.  No range check is performed on `patch`. -/
def setInt32At (f : Nat → Nat) (off : Nat) (v : Int) : Nat → Nat :=
  setLeFn f off 4 (toUintN 32 v)

/-- `dv.setBigInt64(patchAt, BigInt(patch), true)`. -/
def setInt64At (f : Nat → Nat) (off : Nat) (v : Int) : Nat → Nat :=
  setLeFn f off 8 (toUintN 64 v)

/-- The write step of the relocation loop:
`if (patchSz === 4) dv.setInt32(...); else if (patchSz === 8) dv.setBigInt64(...)`. -/
def applyReloc (buf : Nat → Nat) (patchAt patchSz : Nat) (patch : Int) : Nat → Nat :=
  if patchSz = 4 then setInt32At buf patchAt patch
  else if patchSz = 8 then setInt64At buf patchAt patch
  else buf

/-- A value representable as a signed 32-bit integer. -/
def fitsInt32 (v : Int) : Prop := -(2 ^ 31) ≤ v ∧ v < 2 ^ 31

/-! ## Host adapter: syscall handlers (`AxRuntime.run`, src/unnamed/part_003) -/

/-- The outcome of a syscall hook invocation: `instance.commit()` resumes
emulation, `instance.stop()` halts it. -/
inductive AxAction where
  | commit
  | stop
deriving DecidableEq

/-- The `exit` / `exit_group` arm of the syscall hook:
`if (num === 60n || num === 231n) { exitCode = Number(rdi); return instance.stop(); }`.
The recorded exit code is the raw `%rdi` value; no masking is applied. -/
def axExitDispatch (num rdi : Nat) : Option (AxAction × Nat) :=
  if num = 60 ∨ num = 231 then some (AxAction.stop, rdi) else none

/-- `this._heapStart = 0x800000n` — the fixed heap base. -/
def axHeapStart : Nat := 0x800000

/-- The `brk` handler (syscall 12).  Input: the current break, the
`heapMapped` flag and the requested address; output: the new break, the new
flag, and the value committed to `%rax`.  The emulator-side page mapping and
section resizing are memory effects with no bearing on these values. -/
def brkHandler (brk : Nat) (heapMapped : Bool) (addr : Nat) : Nat × Bool × Nat :=
  if addr = 0 then (brk, heapMapped, brk)
  else
    let limit := axHeapStart + 16 * 1024 * 1024
    if axHeapStart ≤ addr ∧ addr < limit then (addr, true, addr)
    else (brk, heapMapped, brk)

/-- The per-run reset executed before the first guest instruction:
`this._fds.clear(); this._nextFd = 3; this._brk = this._heapStart;
this._heapMapped = false;`. -/
structure AxResetState where
  fds : List (Nat × String × Nat)
  nextFd : Nat
  brk : Nat
  heapMapped : Bool

def axRunReset : AxResetState :=
  { fds := [], nextFd := 3, brk := axHeapStart, heapMapped := false }

/-- Where a `write` syscall routes its buffer. -/
inductive WriteSink where
  | stdoutSink
  | stderrSink
  | fileWrite
  | badf
deriving DecidableEq

/-- The fd dispatch of the `write` handler (syscall 1): fd 1 and fd 2 go to
the stdout/stderr sinks by number, without consulting the FD table; other
fds are looked up in the table, with `EBADF` when absent.  The returned
`%rax` is `len` on success and `asUintN(64, -9)` on `EBADF`. -/
def axWriteHandler (fds : List (Nat × String × Nat)) (fd len : Nat) :
    WriteSink × Nat :=
  if fd = 1 then (WriteSink.stdoutSink, len)
  else if fd = 2 then (WriteSink.stderrSink, len)
  else
    match fds.lookup fd with
    | none => (WriteSink.badf, 2 ^ 64 - 9)
    | some _ => (WriteSink.fileWrite, len)

/-- Modelled from the spec: `VirtualFS.getSize` is called by the stat/fstat
handlers but is not defined in the `VirtualFS` source under `src/`; per the
spec ("look up size. Missing → ENOENT") it returns the byte length of the
file at `path`, or `-1` when the path is absent from the store. -/
def vfsGetSize (store : String → Option (List Nat)) (path : String) : Int :=
  match store path with
  | some bs => bs.length
  | none => -1

/-- The `stat` handler (syscall 4), after the path has been read from guest
memory: look up the size; missing → `%rax = asUintN(64, -2)` (ENOENT);
otherwise write `st_size` (8 bytes) at `statPtr + 48` and
`st_mode = 0x81ed` (4 bytes) at `statPtr + 16`, and return 0. -/
def axStatHandler (store : String → Option (List Nat)) (path : String)
    (statPtr : Nat) (mem : Nat → Nat) : (Nat → Nat) × Nat :=
  let size := vfsGetSize store path
  if size = -1 then (mem, 2 ^ 64 - 2)
  else
    (setLeFn (setLeFn mem (statPtr + 48) 8 size.toNat) (statPtr + 16) 4 0x81ed, 0)

/-! ## Host adapter: FD table (`open` / `close` handlers) -/

/-- The FD-table portion of the adapter state: the monotone counter
`_nextFd` and the table `_fds` (fd ↦ (path, offset)). -/
structure FdTable where
  nextFd : Nat
  fds : List (Nat × String × Nat)

/-- The state installed by the per-run reset: `_fds.clear(); _nextFd = 3`. -/
def fdInit : FdTable := { nextFd := 3, fds := [] }

/-- The `open` handler (syscall 2) after path decoding.  `found` is whether
`vfs.read(path)` produced data: on a miss, `%rax = asUintN(64, -2)` (ENOENT)
and the state is unchanged; on a hit, `const fd = rt._nextFd++` is returned
and `(path, offset 0)` is stored under it. -/
def axOpenHandler (found : Bool) (path : String) (st : FdTable) : FdTable × Nat :=
  if found then
    ({ nextFd := st.nextFd + 1, fds := (st.nextFd, path, 0) :: st.fds }, st.nextFd)
  else (st, 2 ^ 64 - 2)

/-- The `close` handler (syscall 3): delete the entry and return 0 when
present, else `EBADF`.  `_nextFd` is not touched. -/
def axCloseHandler (fd : Nat) (st : FdTable) : FdTable × Nat :=
  if (st.fds.lookup fd).isSome then
    ({ st with fds := st.fds.eraseP (fun e => e.1 == fd) }, 0)
  else (st, 2 ^ 64 - 9)

/-- The FD-table-affecting syscalls of one run, with the `vfs.read` outcome
of each `open` recorded in the event. -/
inductive FdEv where
  | openEv (path : String) (found : Bool)
  | closeEv (fd : Nat)

/-- One step of the run: returns the new state and the fd returned by a
successful `open` (if this event was one). -/
def fdStep (st : FdTable) : FdEv → FdTable × Option Nat
  | .openEv path found =>
    let r := axOpenHandler found path st
    (r.1, if found then some r.2 else none)
  | .closeEv fd => ((axCloseHandler fd st).1, none)

/-- Run a sequence of events, collecting the fds returned by successful
`open` calls in order. -/
def fdRun (st : FdTable) : List FdEv → FdTable × List Nat
  | [] => (st, [])
  | e :: es =>
    let r := fdStep st e
    let rest := fdRun r.1 es
    (rest.1, r.2.toList ++ rest.2)

/-! ## Source map (`Chibicc.compile` emission and `AxRuntime.run` lookup) -/

/-- A source-map record as a JavaScript object: each field is present
(`some`) or absent/`undefined` (`none`). -/
structure SMRecord where
  va : Option Nat
  line : Option Nat
  col : Option Nat
  asmLine : Option Nat
  srcLine : Option Nat
  srcCol : Option Nat
deriving DecidableEq

/-- The record pushed by `Chibicc.compile` for each top-level statement:
`{ asmLine: currentAsmLine(), srcLine: node.line, srcCol: node.col }`.
No `va` field is ever set. -/
def chibiccSMRecord (asmLine srcLine srcCol : Nat) : SMRecord :=
  { va := none, line := none, col := none,
    asmLine := some asmLine, srcLine := some srcLine, srcCol := some srcCol }

/-- `BigInt(entry.va)`: throws a `TypeError` when the field is absent. -/
def smEntryVA (r : SMRecord) : Except String Nat :=
  match r.va with
  | some v => Except.ok v
  | none => Except.error "TypeError: Cannot convert undefined to a BigInt"

/-- One iteration of the fault-lookup loop in `AxRuntime.run`:
keep the entry of greatest `va` among those with `va ≤ rip`. -/
def smLookupStep (rip : Nat) (best : Option SMRecord) (entry : SMRecord) :
    Except String (Option SMRecord) := do
  let v ← smEntryVA entry
  if v ≤ rip then
    match best with
    | none => pure (some entry)
    | some b => do
      let bv ← smEntryVA b
      if bv < v then pure (some entry) else pure best
  else
    pure best

/-- The source-map lookup performed when the emulator faults at `rip`. -/
def smLookup (map : List SMRecord) (rip : Nat) : Except String (Option SMRecord) :=
  map.foldlM (smLookupStep rip) none

/-! ## Chibicc code generator (src/unnamed/part_006) -/

/-- The binary operators of the C subset. -/
inductive BOp where
  | add
  | sub
  | mul
  | div
  | eq
  | ne
  | lt
  | le
  | gt
  | ge
deriving DecidableEq

/-- The instruction text emitted for each binary operator. -/
def bopAsm : BOp → String
  | .add => "  addq %rdi, %rax\n"
  | .sub => "  subq %rdi, %rax\n"
  | .mul => "  imulq %rdi, %rax\n"
  | .div => "  cqo\n  idivq %rdi\n"
  | .eq => "  cmpq %rdi, %rax\n  sete %al\n  movzbq %al, %rax\n"
  | .ne => "  cmpq %rdi, %rax\n  setne %al\n  movzbq %al, %rax\n"
  | .lt => "  cmpq %rdi, %rax\n  setl %al\n  movzbq %al, %rax\n"
  | .le => "  cmpq %rdi, %rax\n  setle %al\n  movzbq %al, %rax\n"
  | .gt => "  cmpq %rdi, %rax\n  setg %al\n  movzbq %al, %rax\n"
  | .ge => "  cmpq %rdi, %rax\n  setge %al\n  movzbq %al, %rax\n"

/-- AST nodes produced by the Chibicc parser (`_stmt` / `_expr`).
Source positions are omitted: `_gen` never reads them. -/
inductive CNode where
  | num (v : Nat)
  | str (s : String)
  | var (name : String)
  | assign (name : String) (val : CNode)
  | binary (op : BOp) (left right : CNode)
  | call (name : String) (args : List CNode)
  | ifS (cond thenB : CNode) (els : Option CNode)
  | whileS (cond body : CNode)
  | block (stmts : List CNode)
  | ret (val : CNode)
  | nop

/-- The SysV argument registers used by the `call` case. -/
def argRegs : List String := ["%rdi", "%rsi", "%rdx", "%rcx", "%r8", "%r9"]

/-- The pops emitted after the arguments (`for i = len-1 downto 0:
popq regs[i]`); an index past the register list renders as `undefined`,
exactly as the JS template would. -/
def popArgs : Nat → String
  | 0 => ""
  | k + 1 => "  popq " ++ argRegs.getD k "undefined" ++ "\n" ++ popArgs k

/-- `${this.locals.get(name)}`: a missing local renders as `undefined`. -/
def offString (o : Option Int) : String :=
  match o with
  | some i => toString i
  | none => "undefined"

/-- `_getStrLabel`: `this._stringMap?.get(val) ?? '.L.str.0'`. -/
def getStrLabel (smap : String → Option String) (v : String) : String :=
  (smap v).getD ".L.str.0"

/-- Whether a statement node leaves a value on the stack, i.e. its type is
not in `{if, while, for, block, return, nop}` (the parser never produces a
`for` node, so that disjunct has no constructor here). -/
def isExprStmt : CNode → Bool
  | .ifS _ _ _ => false
  | .whileS _ _ => false
  | .block _ => false
  | .ret _ => false
  | .nop => false
  | _ => true

mutual

/-- `Chibicc._gen`: emits assembly text for a node, threading the
monotonically increasing `labelId`.  `locals` is the local-variable offset
map and `smap` the string-literal label map built by `compile`. -/
def cgen (locals : String → Option Int) (smap : String → Option String) :
    CNode → Nat → String × Nat
  | .num v, n => ("  pushq $" ++ toString v ++ "\n", n)
  | .str s, n =>
    ("  leaq " ++ getStrLabel smap s ++ "(%rip), %rax\n" ++ "  pushq %rax\n", n)
  | .var name, n =>
    ("  movq " ++ offString (locals name) ++ "(%rbp), %rax\n" ++ "  pushq %rax\n", n)
  | .assign name val, n =>
    let p := cgen locals smap val n
    (p.1 ++ "  popq %rax\n" ++ "  movq %rax, " ++ offString (locals name)
      ++ "(%rbp)\n" ++ "  pushq %rax\n", p.2)
  | .binary op l r, n =>
    let pl := cgen locals smap l n
    let pr := cgen locals smap r pl.2
    (pl.1 ++ pr.1 ++ "  popq %rdi\n" ++ "  popq %rax\n" ++ bopAsm op
      ++ "  pushq %rax\n", pr.2)
  | .call name args, n =>
    let pa := cgenArgs locals smap args n
    let callPart :=
      if name = "printf" then "  xorq %rax, %rax\n" ++ "  call __printf\n"
      else "  call " ++ name ++ "\n"
    (pa.1 ++ popArgs args.length ++ callPart ++ "  pushq %rax\n", pa.2)
  | .ifS cond thenB els, n =>
    let id := n
    let pc := cgen locals smap cond (n + 1)
    let pt := cgen locals smap thenB pc.2
    let pe :=
      match els with
      | some e => cgen locals smap e pt.2
      | none => ("", pt.2)
    (pc.1 ++ "  popq %rax\n" ++ "  cmpq $0, %rax\n"
      ++ "  je .L.else." ++ toString id ++ "\n" ++ pt.1
      ++ "  jmp .L.end." ++ toString id ++ "\n"
      ++ ".L.else." ++ toString id ++ ":\n" ++ pe.1
      ++ ".L.end." ++ toString id ++ ":\n", pe.2)
  | .whileS cond body, n =>
    let wid := n
    let pc := cgen locals smap cond (n + 1)
    let pb := cgen locals smap body pc.2
    (".L.begin." ++ toString wid ++ ":\n" ++ pc.1 ++ "  popq %rax\n"
      ++ "  cmpq $0, %rax\n" ++ "  je .L.end." ++ toString wid ++ "\n"
      ++ pb.1 ++ "  jmp .L.begin." ++ toString wid ++ "\n"
      ++ ".L.end." ++ toString wid ++ ":\n", pb.2)
  | .block stmts, n => cgenBlock locals smap stmts n
  | .ret val, n =>
    let p := cgen locals smap val n
    (p.1 ++ "  popq %rax\n" ++ "  jmp .L.exit\n", p.2)
  | .nop, n => ("", n)

/-- Arguments of a call, generated left to right. -/
def cgenArgs (locals : String → Option Int) (smap : String → Option String) :
    List CNode → Nat → String × Nat
  | [], n => ("", n)
  | a :: rest, n =>
    let p := cgen locals smap a n
    let ps := cgenArgs locals smap rest p.2
    (p.1 ++ ps.1, ps.2)

/-- Statements of a block: each value-producing statement is followed by
`popq %rax` to keep the stack balanced. -/
def cgenBlock (locals : String → Option Int) (smap : String → Option String) :
    List CNode → Nat → String × Nat
  | [], n => ("", n)
  | s :: rest, n =>
    let p := cgen locals smap s n
    let c := if isExprStmt s then p.1 ++ "  popq %rax\n" else p.1
    let ps := cgenBlock locals smap rest p.2
    (c ++ ps.1, ps.2)

end

/-! ## The shared epilogue and its execution -/

/-- The instruction forms occurring in the `.L.exit` epilogue emitted by
`Chibicc.compile`. -/
inductive AsmInstr where
  | labelDecl (s : String)
  | movqRbpRsp
  | popqRbp
  | movqImmRax (v : Nat)
  | xorqRdiRdi
  | syscallInstr
deriving DecidableEq

/-- Render an instruction to the exact text `compile` emits for it. -/
def renderInstr : AsmInstr → String
  | .labelDecl s => s ++ ":\n"
  | .movqRbpRsp => "  movq %rbp, %rsp\n"
  | .popqRbp => "  popq %rbp\n"
  | .movqImmRax v => "  movq $" ++ toString v ++ ", %rax\n"
  | .xorqRdiRdi => "  xorq %rdi, %rdi\n"
  | .syscallInstr => "  syscall\n"

def renderAsm (l : List AsmInstr) : String := String.join (l.map renderInstr)

/-- The epilogue appended once by `Chibicc.compile` after all statements. -/
def chibiccEpilogue : List AsmInstr :=
  [AsmInstr.labelDecl ".L.exit", AsmInstr.movqRbpRsp, AsmInstr.popqRbp,
   AsmInstr.movqImmRax 60, AsmInstr.xorqRdiRdi, AsmInstr.syscallInstr]

/-- The general-purpose registers the epilogue touches. -/
structure MRegs where
  rax : Nat
  rdi : Nat
  rsp : Nat
  rbp : Nat

/-- Execute a straight-line instruction sequence.  A `syscall` resolves
through the host adapter's exit dispatch (`axExitDispatch`): `exit` /
`exit_group` halt with the recorded code; other syscall numbers (none occur
in the epilogue) are not modelled and yield `none`. -/
def runAsm (mem : Nat → Nat) : List AsmInstr → MRegs → Option Nat
  | [], _ => none
  | i :: rest, m =>
    match i with
    | .labelDecl _ => runAsm mem rest m
    | .movqRbpRsp => runAsm mem rest { m with rsp := m.rbp }
    | .popqRbp => runAsm mem rest { m with rbp := mem m.rsp, rsp := m.rsp + 8 }
    | .movqImmRax v => runAsm mem rest { m with rax := v }
    | .xorqRdiRdi => runAsm mem rest { m with rdi := 0 }
    | .syscallInstr =>
      match axExitDispatch m.rax m.rdi with
      | some r => some r.2
      | none => none

/-! ## Lemmas on byte stores -/

theorem setLeFn_out (f : Nat → Nat) (off w v j : Nat)
    (h : j < off ∨ off + w ≤ j) : setLeFn f off w v j = f j := by
  unfold setLeFn
  have h2 : ¬ (off ≤ j ∧ j < off + w) := by omega
  simp [h2]

theorem setLeFn_in (f : Nat → Nat) (off w v j : Nat)
    (h1 : off ≤ j) (h2 : j < off + w) :
    setLeFn f off w v j = v / 256 ^ (j - off) % 256 := by
  unfold setLeFn
  have h3 : off ≤ j ∧ j < off + w := ⟨h1, h2⟩
  simp [h3]

theorem copyAtFn_out (f : Nat → Nat) (off : Nat) (src : List Nat) (j : Nat)
    (h : j < off ∨ off + src.length ≤ j) : copyAtFn f off src j = f j := by
  unfold copyAtFn
  have h2 : ¬ (off ≤ j ∧ j < off + src.length) := by omega
  simp [h2]

theorem readLe_congr (f g : Nat → Nat) (off w : Nat)
    (h : ∀ k, k < w → f (off + k) = g (off + k)) :
    readLe f off w = readLe g off w := by
  induction w generalizing off with
  | zero => rfl
  | succ w ih =>
    unfold readLe
    have h0 : f off = g off := by simpa using h 0 (Nat.succ_pos w)
    rw [h0, ih (off + 1) (fun k hk => by
      have := h (k + 1) (by omega)
      simpa [Nat.add_assoc, Nat.add_comm 1 k] using this)]

theorem readLe_setLe_disj (f : Nat → Nat) (off w off2 w2 v : Nat)
    (h : off + w ≤ off2 ∨ off2 + w2 ≤ off) :
    readLe (setLeFn f off2 w2 v) off w = readLe f off w :=
  readLe_congr _ _ _ _ (fun k hk => setLeFn_out _ _ _ _ _ (by omega))

theorem readLe_copyAt_disj (f : Nat → Nat) (off w off2 : Nat) (src : List Nat)
    (h : off + w ≤ off2 ∨ off2 + src.length ≤ off) :
    readLe (copyAtFn f off2 src) off w = readLe f off w :=
  readLe_congr _ _ _ _ (fun k hk => copyAtFn_out _ _ _ _ (by omega))

theorem readLe_setLe_self (f : Nat → Nat) (off w v : Nat) :
    readLe (setLeFn f off w v) off w = v % 256 ^ w := by
  induction w generalizing off v f with
  | zero => simp [readLe, Nat.mod_one]
  | succ w ih =>
    unfold readLe
    rw [setLeFn_in _ _ _ _ _ (Nat.le_refl off) (by omega)]
    have hshift : readLe (setLeFn f off (w + 1) v) (off + 1) w
        = readLe (setLeFn f (off + 1) w (v / 256)) (off + 1) w := by
      apply readLe_congr
      intro k hk
      rw [setLeFn_in _ _ _ _ _ (by omega) (by omega),
          setLeFn_in _ _ _ _ _ (by omega) (by omega)]
      have h1 : off + 1 + k - off = k + 1 := by omega
      have h2 : off + 1 + k - (off + 1) = k := by omega
      rw [h1, h2, pow_succ, Nat.mul_comm, ← Nat.div_div_eq_div_mul]
    rw [hshift, ih]
    have hm : 256 ^ (w + 1) = 256 * 256 ^ w := by ring
    rw [hm, Nat.mod_mul]
    simp [Nat.pow_zero]

/-! ## Lemmas on the built ELF image -/

theorem elfBytes_lt120 (text data : List Nat) (bssLen startOff j : Nat)
    (hj : j < 120) :
    elfBytes text data bssLen startOff j = elfHeaderBytes text data bssLen startOff j := by
  unfold elfBytes
  rw [copyAtFn_out _ _ _ _ (by omega), copyAtFn_out _ _ _ _ (by omega)]

theorem readLe_elfBytes_header (text data : List Nat) (bssLen startOff off w : Nat)
    (h : off + w ≤ 120) :
    readLe (elfBytes text data bssLen startOff) off w
      = readLe (elfHeaderBytes text data bssLen startOff) off w :=
  readLe_congr _ _ _ _ (fun k hk => elfBytes_lt120 _ _ _ _ _ (by omega))

theorem elfHeader_read24 (text data : List Nat) (bssLen startOff : Nat) :
    readLe (elfHeaderBytes text data bssLen startOff) 24 8
      = (0x400078 + startOff) % 256 ^ 8 := by
  unfold elfHeaderBytes
  rw [readLe_setLe_disj _ _ _ _ _ _ (by omega), readLe_setLe_disj _ _ _ _ _ _ (by omega),
    readLe_setLe_disj _ _ _ _ _ _ (by omega), readLe_setLe_disj _ _ _ _ _ _ (by omega),
    readLe_setLe_disj _ _ _ _ _ _ (by omega), readLe_setLe_disj _ _ _ _ _ _ (by omega),
    readLe_setLe_disj _ _ _ _ _ _ (by omega), readLe_setLe_disj _ _ _ _ _ _ (by omega),
    readLe_setLe_disj _ _ _ _ _ _ (by omega), readLe_setLe_disj _ _ _ _ _ _ (by omega),
    readLe_setLe_disj _ _ _ _ _ _ (by omega), readLe_setLe_disj _ _ _ _ _ _ (by omega),
    readLe_setLe_disj _ _ _ _ _ _ (by omega), readLe_setLe_disj _ _ _ _ _ _ (by omega),
    readLe_setLe_disj _ _ _ _ _ _ (by omega), readLe_setLe_disj _ _ _ _ _ _ (by omega),
    readLe_setLe_disj _ _ _ _ _ _ (by omega), readLe_setLe_self]

theorem elfHeader_read96 (text data : List Nat) (bssLen startOff : Nat) :
    readLe (elfHeaderBytes text data bssLen startOff) 96 8
      = (120 + text.length + data.length) % 256 ^ 8 := by
  unfold elfHeaderBytes
  rw [readLe_setLe_disj _ _ _ _ _ _ (by omega), readLe_setLe_disj _ _ _ _ _ _ (by omega),
    readLe_setLe_self]

theorem elfHeader_read104 (text data : List Nat) (bssLen startOff : Nat) :
    readLe (elfHeaderBytes text data bssLen startOff) 104 8
      = (120 + text.length + data.length + bssLen) % 256 ^ 8 := by
  unfold elfHeaderBytes
  rw [readLe_setLe_disj _ _ _ _ _ _ (by omega), readLe_setLe_self]

theorem elfHeader_magic (text data : List Nat) (bssLen startOff : Nat) :
    elfHeaderBytes text data bssLen startOff 0 = 0x7f
    ∧ elfHeaderBytes text data bssLen startOff 1 = 0x45
    ∧ elfHeaderBytes text data bssLen startOff 2 = 0x4c
    ∧ elfHeaderBytes text data bssLen startOff 3 = 0x46 := by
  refine ⟨?_, ?_, ?_, ?_⟩ <;> simp [elfHeaderBytes, setLeFn, copyAtFn]

theorem elfHeader_read16 (text data : List Nat) (bssLen startOff : Nat) :
    readLe (elfHeaderBytes text data bssLen startOff) 16 2 = 2 := by
  simp [readLe, elfHeaderBytes, setLeFn, copyAtFn]

theorem elfHeader_read18 (text data : List Nat) (bssLen startOff : Nat) :
    readLe (elfHeaderBytes text data bssLen startOff) 18 2 = 0x3e := by
  simp [readLe, elfHeaderBytes, setLeFn, copyAtFn]

theorem elfHeader_read56 (text data : List Nat) (bssLen startOff : Nat) :
    readLe (elfHeaderBytes text data bssLen startOff) 56 2 = 1 := by
  simp [readLe, elfHeaderBytes, setLeFn, copyAtFn]

theorem elfHeader_read64 (text data : List Nat) (bssLen startOff : Nat) :
    readLe (elfHeaderBytes text data bssLen startOff) 64 4 = 1 := by
  simp [readLe, elfHeaderBytes, setLeFn, copyAtFn]

theorem elfHeader_read68 (text data : List Nat) (bssLen startOff : Nat) :
    readLe (elfHeaderBytes text data bssLen startOff) 68 4 = 7 := by
  simp [readLe, elfHeaderBytes, setLeFn, copyAtFn]

theorem elfHeader_read80 (text data : List Nat) (bssLen startOff : Nat) :
    readLe (elfHeaderBytes text data bssLen startOff) 80 8 = 0x400000 := by
  simp [readLe, elfHeaderBytes, setLeFn, copyAtFn]

theorem elfBytes_byte_eq (text data : List Nat) (bssLen startOff : Nat) :
    elfBytes text data bssLen startOff 0 = 0x7f
    ∧ elfBytes text data bssLen startOff 1 = 0x45
    ∧ elfBytes text data bssLen startOff 2 = 0x4c
    ∧ elfBytes text data bssLen startOff 3 = 0x46 := by
  have h := elfHeader_magic text data bssLen startOff
  refine ⟨?_, ?_, ?_, ?_⟩ <;>
    rw [elfBytes_lt120 _ _ _ _ _ (by omega)]
  · exact h.1
  · exact h.2.1
  · exact h.2.2.1
  · exact h.2.2.2

/-! ## Claim C2: shape of the emitted ELF image -/

/-- C2.  For every successful assembly with a non-empty `.text`, the emitted
ELF image has total length `120 + |.text| + |.data|`, starts with
`7F 45 4C 46`, has `e_type = 2` (ET_EXEC) at offset 16 and
`e_machine = 0x3E` (EM_X86_64) at offset 18, entry
`0x400078 + (offset of _start in .text)` at offset 24 (hence inside
`[0x400078, 0x400078 + |.text|)`), and a single PT_LOAD program header at
offset 64 with `p_flags = 7`, `p_vaddr = 0x400000`, `p_filesz` the file
length and `p_memsz = p_filesz + |.bss|`. -/
theorem elf_image_bit_exact (text data : List Nat) (bssLen startOff : Nat)
    (h1 : text.length ≠ 0) (h2 : startOff < text.length)
    (h3 : 0x400000 + 120 + text.length + data.length + bssLen < 2 ^ 64) :
    elfImageOk text data bssLen startOff := by
  have hpow : (256 : Nat) ^ 8 = 2 ^ 64 := by norm_num
  have hentry : readLe (elfBytes text data bssLen startOff) 24 8
      = 0x400078 + startOff := by
    rw [readLe_elfBytes_header _ _ _ _ _ _ (by omega), elfHeader_read24,
      Nat.mod_eq_of_lt (by rw [hpow]; omega)]
  have hbytes := elfBytes_byte_eq text data bssLen startOff
  refine ⟨?_, hbytes.1, hbytes.2.1, hbytes.2.2.1, hbytes.2.2.2, ?_, ?_, hentry,
    ?_, ?_, ?_, ?_, ?_, ?_, ?_, ?_⟩
  · unfold buildElf
    simp [h1]
  · rw [readLe_elfBytes_header _ _ _ _ _ _ (by omega)]
    exact elfHeader_read16 _ _ _ _
  · rw [readLe_elfBytes_header _ _ _ _ _ _ (by omega)]
    exact elfHeader_read18 _ _ _ _
  · rw [hentry]; omega
  · rw [hentry]; omega
  · rw [readLe_elfBytes_header _ _ _ _ _ _ (by omega)]
    exact elfHeader_read56 _ _ _ _
  · rw [readLe_elfBytes_header _ _ _ _ _ _ (by omega)]
    exact elfHeader_read64 _ _ _ _
  · rw [readLe_elfBytes_header _ _ _ _ _ _ (by omega)]
    exact elfHeader_read68 _ _ _ _
  · rw [readLe_elfBytes_header _ _ _ _ _ _ (by omega)]
    exact elfHeader_read80 _ _ _ _
  · rw [readLe_elfBytes_header _ _ _ _ _ _ (by omega), elfHeader_read96,
      Nat.mod_eq_of_lt (by rw [hpow]; omega)]
  · rw [readLe_elfBytes_header _ _ _ _ _ _ (by omega), elfHeader_read104,
      Nat.mod_eq_of_lt (by rw [hpow]; omega)]

/-- Witness for C2 at `.text = [0x90]`, empty `.data`/`.bss`, `_start` at
offset 0. -/
theorem elf_image_bit_exact_witness : elfImageOk [0x90] [] 0 0 :=
  elf_image_bit_exact [0x90] [] 0 0 (by decide) (by decide) (by norm_num)

/-! ## Claim C5: missing `_start` -/

/-- C5 counterexample.  With `_start` undefined
(`state.symbols?.get('_start') = undefined`), `_buildElf` does not fail:
for `.text = [0x90]` it still emits a 121-byte executable image, with the
entry point silently defaulted to `0x400078` (offset 0).  The claimed fatal
`UndefinedSymbol` error does not exist in the code. -/
theorem elf_missing_start_counterexample :
    buildElf [0x90] [] 0 none = some ⟨121, elfBytes [0x90] [] 0 0⟩
    ∧ readLe (elfBytes [0x90] [] 0 0) 24 8 = 0x400078 := by
  constructor
  · unfold buildElf
    norm_num
  · rw [readLe_elfBytes_header _ _ _ _ _ _ (by omega), elfHeader_read24]
    norm_num

/-- C5 amended.  When `_start` is not defined, ELF construction still
succeeds for any non-empty `.text`; the entry-point offset falls back to 0
(`?? 0`), so `e_entry = 0x400078`. -/
theorem elf_missing_start_defaults_entry (text data : List Nat) (bssLen : Nat)
    (h1 : text.length ≠ 0) :
    buildElf text data bssLen none
      = some ⟨120 + text.length + data.length, elfBytes text data bssLen 0⟩
    ∧ readLe (elfBytes text data bssLen 0) 24 8 = 0x400078 := by
  constructor
  · unfold buildElf
    simp [h1]
  · rw [readLe_elfBytes_header _ _ _ _ _ _ (by omega), elfHeader_read24]
    norm_num

/-- Witness for the amended C5 at `.text = [0x90]`. -/
theorem elf_missing_start_defaults_entry_witness :
    buildElf [0x90] [] 0 none = some ⟨121, elfBytes [0x90] [] 0 0⟩
    ∧ readLe (elfBytes [0x90] [] 0 0) 24 8 = 0x400078 :=
  elf_missing_start_defaults_entry [0x90] [] 0 (by decide)

/-! ## Claim C6: 4-byte relocation overflow -/

/-- C6 counterexample.  The absolute relocation in a 1-byte `.text`
targeting `.text` with addend `2^31 - 0x400078` has computed patch value
exactly `2^31`, which does not fit a signed 32-bit integer; yet the writer
raises no error and stores the truncated bytes: read back unsigned they are
`0x80000000`, read back signed they are `-2^31 ≠ 2^31`.  The claimed fatal
`RelocationOverflow` error does not exist in the code. -/
theorem reloc_overflow_counterexample :
    relocPatchValue 1 0 SectionName.text SectionName.text 0 0 4
        (2 ^ 31 - 0x400078) false = 2 ^ 31
    ∧ ¬ fitsInt32 (2 ^ 31)
    ∧ readLe (applyReloc (fun _ => 0) 0 4 (2 ^ 31)) 0 4 = 2 ^ 31
    ∧ readInt32 (applyReloc (fun _ => 0) 0 4 (2 ^ 31)) 0 = -(2 ^ 31) := by
  refine ⟨by decide, fun hc => absurd hc.2 (by decide), ?_, ?_⟩
  · have h : readLe (applyReloc (fun _ => 0) 0 4 (2 ^ 31)) 0 4
        = toUintN 32 (2 ^ 31) % 256 ^ 4 := by
      unfold applyReloc setInt32At
      simp [readLe_setLe_self]
    rw [h]
    decide
  · have h : readLe (applyReloc (fun _ => 0) 0 4 (2 ^ 31)) 0 4
        = toUintN 32 (2 ^ 31) % 256 ^ 4 := by
      unfold applyReloc setInt32At
      simp [readLe_setLe_self]
    unfold readInt32
    rw [h]
    decide

/-- C6 amended.  A 4-byte relocation whose computed patch value does not fit
in a signed 32-bit integer is not rejected: `dv.setInt32` truncates the
value two's-complement modulo `2^32` and writes the truncated bytes into the
section buffer; construction proceeds with no error. -/
theorem reloc_overflow_truncates (buf : Nat → Nat) (patchAt : Nat) (patch : Int)
    (h : ¬ fitsInt32 patch) :
    applyReloc buf patchAt 4 patch = setLeFn buf patchAt 4 (toUintN 32 patch)
    ∧ readLe (applyReloc buf patchAt 4 patch) patchAt 4 = toUintN 32 patch := by
  have heq : applyReloc buf patchAt 4 patch
      = setLeFn buf patchAt 4 (toUintN 32 patch) := by
    unfold applyReloc setInt32At
    simp
  refine ⟨heq, ?_⟩
  rw [heq, readLe_setLe_self]
  have hlt : toUintN 32 patch < 4294967296 := by
    unfold toUintN
    have hpos : (0 : Int) < 4294967296 := by norm_num
    have h1 : patch.emod 4294967296 < 4294967296 := Int.emod_lt_of_pos patch hpos
    have h2 : 0 ≤ patch.emod 4294967296 := Int.emod_nonneg patch (by norm_num)
    have hp : ((2 : Int) ^ 32) = 4294967296 := by norm_num
    rw [hp]
    omega
  have hp4 : (256 : Nat) ^ 4 = 4294967296 := by norm_num
  rw [hp4]
  exact Nat.mod_eq_of_lt hlt

/-- Witness for the amended C6 at the same out-of-range patch value. -/
theorem reloc_overflow_truncates_witness :
    applyReloc (fun _ => 0) 0 4 (2 ^ 31) = setLeFn (fun _ => 0) 0 4 (toUintN 32 (2 ^ 31))
    ∧ readLe (applyReloc (fun _ => 0) 0 4 (2 ^ 31)) 0 4 = toUintN 32 (2 ^ 31) :=
  reloc_overflow_truncates (fun _ => 0) 0 (2 ^ 31)
    (fun hc => absurd hc.2 (by decide))

/-! ## Claim C1: exit / exit_group -/

/-- C1 counterexample.  `exit(256)` stops the emulator but records exit code
256, not `256 & 0xFF = 0`: the handler stores the raw `%rdi` value with no
masking. -/
theorem exit_code_unmasked_counterexample :
    axExitDispatch 60 256 = some (AxAction.stop, 256)
    ∧ (256 : Nat) % 256 = 0
    ∧ axExitDispatch 60 256 ≠ some (AxAction.stop, 0) := by
  decide

/-- C1 amended.  For every guest execution of syscall 60 (`exit`) or 231
(`exit_group`) with value `n` in `%rdi`, the adapter stops the emulator and
records the run's exit code as the raw value `n` (no `& 0xFF` masking); in
particular `exit(256)` yields 256 and `exit(300)` yields 300. -/
theorem exit_records_raw_code (num rdi : Nat) (h : num = 60 ∨ num = 231) :
    axExitDispatch num rdi = some (AxAction.stop, rdi) := by
  unfold axExitDispatch
  simp [h]

/-- Witness for the amended C1: `exit_group(300)` records 300. -/
theorem exit_records_raw_code_witness :
    axExitDispatch 231 300 = some (AxAction.stop, 300) :=
  exit_records_raw_code 231 300 (Or.inr rfl)

/-! ## Claim C3: brk -/

/-- C3.  `brk(0)` returns the current break (and `heap_base` on the first
call of a run, since the per-run reset sets `_brk = _heapStart`);
`heap_base ≤ addr < heap_base + 16 MiB` sets the break to `addr` and returns
it (in particular `heap_base + 16 MiB - 1` is accepted); any other address —
including `heap_base + 16 MiB` exactly — returns the current break unchanged
with no error code. -/
theorem brk_semantics :
    (∀ b m, brkHandler b m 0 = (b, m, b))
    ∧ (∀ m, brkHandler axRunReset.brk m 0 = (axHeapStart, m, axHeapStart))
    ∧ (∀ b m addr, axHeapStart ≤ addr → addr < axHeapStart + 16 * 1024 * 1024 →
        brkHandler b m addr = (addr, true, addr))
    ∧ (∀ b m, brkHandler b m (axHeapStart + 16 * 1024 * 1024 - 1)
        = (axHeapStart + 16 * 1024 * 1024 - 1, true,
           axHeapStart + 16 * 1024 * 1024 - 1))
    ∧ (∀ b m addr, addr ≠ 0 →
        ¬ (axHeapStart ≤ addr ∧ addr < axHeapStart + 16 * 1024 * 1024) →
        brkHandler b m addr = (b, m, b))
    ∧ (∀ b m, brkHandler b m (axHeapStart + 16 * 1024 * 1024) = (b, m, b)) := by
  refine ⟨?_, ?_, ?_, ?_, ?_, ?_⟩
  · intro b m
    simp [brkHandler]
  · intro m
    simp [brkHandler, axRunReset]
  · intro b m addr h1 h2
    have hne : addr ≠ 0 := by
      unfold axHeapStart at h1
      omega
    simp [brkHandler, hne, h1, h2]
  · intro b m
    simp [brkHandler, axHeapStart]
  · intro b m addr h1 h2
    rw [brkHandler, if_neg h1]
    simp only
    rw [if_neg h2]
  · intro b m
    simp [brkHandler, axHeapStart]

/-- Witness for C3: with the initial break, `brk(0x800010)` moves the break. -/
theorem brk_semantics_witness :
    brkHandler axHeapStart false 0x800010 = (0x800010, true, 0x800010) :=
  brk_semantics.2.2.1 axHeapStart false 0x800010 (by decide) (by decide)

/-! ## Claim C7: FD table at run start -/

/-- C7 counterexample.  After the per-run reset, the FD table is empty:
descriptors 0, 1 and 2 are not present (no re-install happens).  Only the
counter is reset to 3. -/
theorem fd_reset_no_std_counterexample :
    axRunReset.fds = []
    ∧ axRunReset.fds.lookup 0 = none
    ∧ axRunReset.fds.lookup 1 = none
    ∧ axRunReset.fds.lookup 2 = none := by
  decide

/-- C7 amended.  At run start the adapter clears the FD table (leaving it
empty — descriptors 0/1/2 are not re-installed as table entries) and resets
the fd counter to 3; stdout (fd 1) and stderr (fd 2) are nevertheless
usable, because the `write` handler routes them by number before any table
lookup. -/
theorem fd_reset_state :
    axRunReset = { fds := [], nextFd := 3, brk := axHeapStart, heapMapped := false }
    ∧ (∀ len, axWriteHandler axRunReset.fds 1 len = (WriteSink.stdoutSink, len))
    ∧ (∀ len, axWriteHandler axRunReset.fds 2 len = (WriteSink.stderrSink, len)) := by
  refine ⟨rfl, ?_, ?_⟩ <;> intro len <;> simp [axWriteHandler]

/-! ## Claim C8: stat -/

/-- C8.  For a `stat` call whose path is present in the virtual file store,
the handler writes the file's size as `st_size` at offset 48 of the stat
buffer and `st_mode = 0o100755` at offset 16, and returns 0; for an absent
path it returns `-ENOENT` (as the unsigned 64-bit value `2^64 - 2`). -/
theorem stat_semantics (store : String → Option (List Nat)) (path : String)
    (p : Nat) (mem : Nat → Nat) :
    (∀ bs, store path = some bs → bs.length < 2 ^ 64 →
      (axStatHandler store path p mem).2 = 0
      ∧ readLe (axStatHandler store path p mem).1 (p + 48) 8 = bs.length
      ∧ readLe (axStatHandler store path p mem).1 (p + 16) 4 = 0o100755)
    ∧ (store path = none → axStatHandler store path p mem = (mem, 2 ^ 64 - 2)) := by
  constructor
  · intro bs hsome hlen
    have hsz : vfsGetSize store path = (bs.length : Int) := by
      unfold vfsGetSize
      rw [hsome]
    have hne : vfsGetSize store path ≠ -1 := by
      rw [hsz]
      omega
    have hh : axStatHandler store path p mem
        = (setLeFn (setLeFn mem (p + 48) 8 bs.length) (p + 16) 4 0x81ed, 0) := by
      unfold axStatHandler
      rw [if_neg hne, hsz]
      simp
    refine ⟨by rw [hh], ?_, ?_⟩
    · rw [hh]
      simp only
      rw [readLe_setLe_disj _ _ _ _ _ _ (by omega), readLe_setLe_self]
      have hp : (256 : Nat) ^ 8 = 2 ^ 64 := by norm_num
      rw [hp]
      exact Nat.mod_eq_of_lt hlen
    · rw [hh]
      simp only
      rw [readLe_setLe_self]
      norm_num
  · intro hnone
    have hsz : vfsGetSize store path = -1 := by
      unfold vfsGetSize
      rw [hnone]
    unfold axStatHandler
    rw [hsz]
    simp

/-- Witness for C8: `stat("/etc/hostname")` on a store holding a 2-byte
file writes size 2 and mode `0o100755` and returns 0. -/
theorem stat_semantics_witness :
    ((axStatHandler (fun q => if q = "/etc/hostname" then some [104, 101] else none)
        "/etc/hostname" 0 (fun _ => 0)).2 = 0
      ∧ readLe (axStatHandler (fun q => if q = "/etc/hostname" then some [104, 101] else none)
        "/etc/hostname" 0 (fun _ => 0)).1 (0 + 48) 8 = ([104, 101] : List Nat).length
      ∧ readLe (axStatHandler (fun q => if q = "/etc/hostname" then some [104, 101] else none)
        "/etc/hostname" 0 (fun _ => 0)).1 (0 + 16) 4 = 0o100755) :=
  (stat_semantics (fun q => if q = "/etc/hostname" then some [104, 101] else none)
    "/etc/hostname" 0 (fun _ => 0)).1 [104, 101] (by simp) (by norm_num)

/-! ## Claim C9: fd monotonicity -/

theorem fdStep_nextFd_le (st : FdTable) (e : FdEv) :
    st.nextFd ≤ (fdStep st e).1.nextFd := by
  cases e with
  | openEv path found =>
    by_cases hf : found <;> simp [fdStep, axOpenHandler, hf]
  | closeEv fd =>
    by_cases hc : (st.fds.lookup fd).isSome <;> simp [fdStep, axCloseHandler, hc]

theorem fdStep_ret_eq (st : FdTable) (e : FdEv) (r : Nat)
    (h : (fdStep st e).2 = some r) :
    r = st.nextFd ∧ (fdStep st e).1.nextFd = st.nextFd + 1 := by
  cases e with
  | openEv path found =>
    by_cases hf : found
    · simp [fdStep, axOpenHandler, hf] at h ⊢
      omega
    · simp [fdStep, axOpenHandler, hf] at h
  | closeEv fd =>
    simp [fdStep] at h

theorem fdRun_nextFd_le (evs : List FdEv) :
    ∀ st : FdTable, st.nextFd ≤ (fdRun st evs).1.nextFd := by
  induction evs with
  | nil => intro st; simp [fdRun]
  | cons e es ih =>
    intro st
    have h1 := fdStep_nextFd_le st e
    have h2 := ih (fdStep st e).1
    simp only [fdRun]
    omega

theorem fdRun_all_ge (evs : List FdEv) :
    ∀ (st : FdTable) (r : Nat), r ∈ (fdRun st evs).2 → st.nextFd ≤ r := by
  induction evs with
  | nil =>
    intro st r h
    simp [fdRun] at h
  | cons e es ih =>
    intro st r h
    simp only [fdRun, List.mem_append] at h
    rcases h with h | h
    · cases hr : (fdStep st e).2 with
      | none => simp [hr] at h
      | some v =>
        simp [hr] at h
        have hv := (fdStep_ret_eq st e v hr).1
        omega
    · have h1 := fdStep_nextFd_le st e
      have h2 := ih (fdStep st e).1 r h
      omega

theorem fdRun_chain (evs : List FdEv) :
    ∀ st : FdTable, List.Chain' (· < ·) (fdRun st evs).2 := by
  induction evs with
  | nil => intro st; simp [fdRun]
  | cons e es ih =>
    intro st
    simp only [fdRun]
    cases hr : (fdStep st e).2 with
    | none => simpa using ih (fdStep st e).1
    | some v =>
      simp only [Option.toList_some, List.singleton_append]
      rw [List.chain'_cons']
      refine ⟨?_, ih (fdStep st e).1⟩
      intro b hb
      have hmem : b ∈ (fdRun (fdStep st e).1 es).2 := List.mem_of_mem_head? hb
      have hge := fdRun_all_ge es (fdStep st e).1 b hmem
      have hret := fdStep_ret_eq st e v hr
      omega

/-- C9.  Within a single run (FD state reset to counter 3 and empty table),
every fd returned by a successful `open` is ≥ 3 and strictly greater than
every fd returned earlier in the run, regardless of interleaved `close`
calls: fd values are never reused within a run. -/
theorem open_fds_monotone (evs : List FdEv) :
    List.Chain' (· < ·) (fdRun fdInit evs).2
    ∧ ∀ r ∈ (fdRun fdInit evs).2, 3 ≤ r :=
  ⟨fdRun_chain evs fdInit, fun r hr => fdRun_all_ge evs fdInit r hr⟩

/-- Witness for C9 on a run that opens, closes the returned fd 3, and opens
again: the returned fds are strictly increasing (3 is not reused). -/
theorem open_fds_monotone_witness :
    List.Chain' (· < ·)
      (fdRun fdInit [FdEv.openEv "/a" true, FdEv.closeEv 3, FdEv.openEv "/b" true]).2
    ∧ ∀ r ∈ (fdRun fdInit
        [FdEv.openEv "/a" true, FdEv.closeEv 3, FdEv.openEv "/b" true]).2, 3 ≤ r :=
  open_fds_monotone [FdEv.openEv "/a" true, FdEv.closeEv 3, FdEv.openEv "/b" true]

/-! ## Claim C4: source map records and fault lookup -/

/-- C4 (code bug).  `Chibicc.compile` emits source-map records of shape
`{asmLine, srcLine, srcCol}` — keyed by the line number in the generated
assembly text, with no `va` field — while the fault path of `AxRuntime.run`
reads `entry.va` (`BigInt(entry.va)`).  Consequently the lookup throws a
`TypeError` instead of annotating the fault: here evaluated on the record a
one-statement program produces, at fault address `0x400080`. -/
theorem sourcemap_lookup_bug :
    (chibiccSMRecord 6 1 0).va = none
    ∧ smLookup [chibiccSMRecord 6 1 0] 0x400080
        = Except.error "TypeError: Cannot convert undefined to a BigInt" := by
  constructor
  · rfl
  · rfl

/-! ## Claim C10: `return` and the shared epilogue -/

/-- C10.  The code generator's `return` case evaluates the expression, pops
it into `%rax` and jumps to the shared `.L.exit` label (it never issues the
exit syscall itself); the epilogue `Chibicc.compile` emits at `.L.exit`
renders exactly as in the source and, executed from any register state,
performs `xorq %rdi, %rdi` before `syscall` with `%rax = 60`, so the
recorded exit code is 0 regardless of the returned value — `return 42;`
still exits with status 0. -/
theorem return_exits_zero :
    (∀ (locals : String → Option Int) (smap : String → Option String)
        (v : CNode) (n : Nat),
      (cgen locals smap (CNode.ret v) n).1
          = (cgen locals smap v n).1 ++ "  popq %rax\n" ++ "  jmp .L.exit\n"
        ∧ (cgen locals smap (CNode.ret v) n).2 = (cgen locals smap v n).2)
    ∧ renderAsm chibiccEpilogue
        = ".L.exit:\n  movq %rbp, %rsp\n  popq %rbp\n  movq $60, %rax\n  xorq %rdi, %rdi\n  syscall\n"
    ∧ (∀ (mem : Nat → Nat) (m : MRegs), runAsm mem chibiccEpilogue m = some 0) := by
  refine ⟨?_, ?_, ?_⟩
  · intro locals smap v n
    constructor <;> simp [cgen]
  · rfl
  · intro mem m
    simp [runAsm, chibiccEpilogue, axExitDispatch]

end HelixCore
